import Mathlib

/-!
Verification of the tweet-classification data pipeline
(`src/data/tweets_data.py`, `src/embedding/BERT_EMBEDDING.py`).

The Python code is shallowly embedded: datasets (`tf.data.Dataset`
values) become Lean lists, the `.repeat()`ed datasets become functions
`Nat → Option _` (index into the infinite stream), Python fractions
become rationals, Python `int(x)` on a non-negative float division
becomes `Int.floor` on the rational quotient, and fallible operations
(assertion failures, IndexError, missing files) return `Option` /
`Except`.  The external BERT tokenizer (`transformers` library) is an
assumed capability, modelled by a structure carrying the contract the
spec states for it.
-/

/-! ## Split-count arithmetic of `TweetDataset.split_dataset` (lines 203-206) -/

/-- The code's `int(self.size/batch_size)`: number of (full) batches of the
whole dataset as computed by `TweetDataset.split_dataset`. -/
def totalBatches (batch_size size : ℕ) : ℤ := ⌊(size : ℚ) / (batch_size : ℚ)⌋

/-- The three batch counts computed by `TweetDataset.split_dataset`. -/
structure SplitCounts where
  validation_split : ℤ
  test_split : ℤ
  train_split : ℤ
deriving DecidableEq

/-- Embedding of `TweetDataset.split_dataset` lines 204-206:
`validation_split = int(validation_size*self.size/batch_size)`,
`test_split = int(test_size*self.size/batch_size)`,
`train_split = int(self.size/batch_size) - validation_split - test_split`. -/
def splitCounts (batch_size : ℕ) (validation_size test_size : ℚ) (size : ℕ) : SplitCounts :=
  { validation_split := ⌊validation_size * (size : ℚ) / (batch_size : ℚ)⌋
    test_split := ⌊test_size * (size : ℚ) / (batch_size : ℚ)⌋
    train_split := totalBatches batch_size size
      - ⌊validation_size * (size : ℚ) / (batch_size : ℚ)⌋
      - ⌊test_size * (size : ℚ) / (batch_size : ℚ)⌋ }

/-- The spec's own formula for the batch-count splitter (section 4.5(a)):
`validation_batches = floor(validation_fraction * size / batch_size)`,
`test_batches = floor(test_fraction * size / batch_size)`,
`train_batches = floor(size / batch_size) - validation_batches - test_batches`. -/
def specSplitCounts (batch_size : ℕ) (validation_fraction test_fraction : ℚ) (size : ℕ) :
    SplitCounts :=
  { validation_split := ⌊validation_fraction * (size : ℚ) / (batch_size : ℚ)⌋
    test_split := ⌊test_fraction * (size : ℚ) / (batch_size : ℚ)⌋
    train_split := ⌊(size : ℚ) / (batch_size : ℚ)⌋
      - ⌊validation_fraction * (size : ℚ) / (batch_size : ℚ)⌋
      - ⌊test_fraction * (size : ℚ) / (batch_size : ℚ)⌋ }

/-- C1 (counterexample): with fractions 3/5 and 3/5 (which sum to more than 1),
size 100 and batch size 10, the train batch count computed by
`TweetDataset.split_dataset` is -2, which is negative — the code has no guard
that would clamp it to an empty split, refuting the claim that each of the
three counts is non-negative for arbitrary validation/test fractions. -/
theorem splitCounts_train_negative_at_big_fractions :
    (splitCounts 10 (3/5) (3/5) 100).train_split = -2 ∧ (-2 : ℤ) < 0 := by
  constructor
  · simp only [splitCounts, totalBatches]
    norm_num
  · decide

/-- C1 (amended): for every non-zero batch size and dataset size, if the
validation and test fractions are non-negative and sum to at most 1, then all
three split counts of `TweetDataset.split_dataset` are non-negative and their
sum is at most the total batch count `int(size/batch_size)`.  (Without the
bound `v + t ≤ 1` the train count can be negative, as the counterexample
shows; the validation and test counts, and the sum identity, need no bound.) -/
theorem splitCounts_nonneg_sum_le (batch_size size : ℕ) (v t : ℚ)
    (hbs : 0 < batch_size) (hsize : 0 < size)
    (hv : 0 ≤ v) (ht : 0 ≤ t) (hvt : v + t ≤ 1) :
    0 ≤ (splitCounts batch_size v t size).validation_split ∧
    0 ≤ (splitCounts batch_size v t size).test_split ∧
    0 ≤ (splitCounts batch_size v t size).train_split ∧
    (splitCounts batch_size v t size).validation_split
      + (splitCounts batch_size v t size).test_split
      + (splitCounts batch_size v t size).train_split ≤ totalBatches batch_size size := by
  have hb : (0:ℚ) ≤ (batch_size:ℚ) := by positivity
  have hs : (0:ℚ) ≤ (size:ℚ) := by positivity
  have hval : (0:ℤ) ≤ ⌊v * (size : ℚ) / (batch_size : ℚ)⌋ := by
    apply Int.le_floor.mpr
    push_cast
    exact div_nonneg (mul_nonneg hv hs) hb
  have htest : (0:ℤ) ≤ ⌊t * (size : ℚ) / (batch_size : ℚ)⌋ := by
    apply Int.le_floor.mpr
    push_cast
    exact div_nonneg (mul_nonneg ht hs) hb
  have hsumfloor : ⌊v * (size : ℚ) / (batch_size : ℚ)⌋ + ⌊t * (size : ℚ) / (batch_size : ℚ)⌋
      ≤ totalBatches batch_size size := by
    have h1 : ⌊v * (size : ℚ) / (batch_size : ℚ)⌋ + ⌊t * (size : ℚ) / (batch_size : ℚ)⌋
        ≤ ⌊v * (size : ℚ) / (batch_size : ℚ) + t * (size : ℚ) / (batch_size : ℚ)⌋ := by
      apply Int.le_floor.mpr
      push_cast
      exact add_le_add (Int.floor_le _) (Int.floor_le _)
    have h2 : v * (size : ℚ) / (batch_size : ℚ) + t * (size : ℚ) / (batch_size : ℚ)
        ≤ (size : ℚ) / (batch_size : ℚ) := by
      have hrw : v * (size : ℚ) / (batch_size : ℚ) + t * (size : ℚ) / (batch_size : ℚ)
          = (v + t) * ((size : ℚ) / (batch_size : ℚ)) := by ring
      rw [hrw]
      calc (v + t) * ((size : ℚ) / (batch_size : ℚ))
          ≤ 1 * ((size : ℚ) / (batch_size : ℚ)) :=
            mul_le_mul_of_nonneg_right hvt (div_nonneg hs hb)
        _ = (size : ℚ) / (batch_size : ℚ) := one_mul _
    exact le_trans h1 (Int.floor_le_floor h2)
  refine ⟨hval, htest, ?_, ?_⟩
  · simp only [splitCounts]
    omega
  · simp only [splitCounts]
    omega

/-- C1 (witness): the amended theorem applied at batch size 10, size 100,
fractions 1/5 and 1/5. -/
theorem splitCounts_nonneg_sum_le_at_fifths :
    0 ≤ (splitCounts 10 (1/5) (1/5) 100).validation_split ∧
    0 ≤ (splitCounts 10 (1/5) (1/5) 100).test_split ∧
    0 ≤ (splitCounts 10 (1/5) (1/5) 100).train_split ∧
    (splitCounts 10 (1/5) (1/5) 100).validation_split
      + (splitCounts 10 (1/5) (1/5) 100).test_split
      + (splitCounts 10 (1/5) (1/5) 100).train_split ≤ totalBatches 10 100 :=
  splitCounts_nonneg_sum_le 10 100 (1/5) (1/5) (by norm_num) (by norm_num)
    (by norm_num) (by norm_num) (by norm_num)

/-- C5: the splitter computes exactly the spec's formula (the embedded code
definition and the definition transcribed from the spec's words agree on all
inputs), and on the spec's scenario (fractions 1/5 and 1/5, size 100, batch
size 10) it yields validation 2, test 2, train 6. -/
theorem splitCounts_eq_spec_formula :
    (∀ (batch_size : ℕ) (v t : ℚ) (size : ℕ),
      splitCounts batch_size v t size = specSplitCounts batch_size v t size) ∧
    splitCounts 10 (1/5) (1/5) 100 = ⟨2, 2, 6⟩ := by
  constructor
  · intro batch_size v t size
    rfl
  · simp only [splitCounts, totalBatches]
    norm_num

/-! ## Batch assignment of `TweetDataset.split_dataset` (lines 208-223) -/

/-- Embedding of the take/skip assignment in `TweetDataset.split_dataset`
(on the already-batched dataset, modelled as a list of batches):
`train_data = self.dataset.skip(validation_split + test_split)`,
`validation_data = self.dataset.take(validation_split)`,
`test_data = self.dataset.skip(validation_split).take(test_split)`.
Returned in the code's order (train, validation, test). -/
def split_dataset_assign {α : Type} (batches : List α)
    (validation_split test_split : ℕ) : List α × List α × List α :=
  (batches.drop (validation_split + test_split),
   batches.take validation_split,
   (batches.drop validation_split).take test_split)

/-- C4: in the batch-count strategy the validation split is the first
`validation_split` batches, the test split is the next `test_split` batches,
and the training split is everything after; the three pieces in the order
validation, test, train reassemble the whole batched sequence. -/
theorem split_dataset_assign_head_carving {α : Type} (batches : List α)
    (validation_split test_split : ℕ) :
    (split_dataset_assign batches validation_split test_split).2.1
        = batches.take validation_split ∧
    (split_dataset_assign batches validation_split test_split).2.2
        = (batches.drop validation_split).take test_split ∧
    (split_dataset_assign batches validation_split test_split).1
        = batches.drop (validation_split + test_split) ∧
    (split_dataset_assign batches validation_split test_split).2.1
        ++ (split_dataset_assign batches validation_split test_split).2.2
        ++ (split_dataset_assign batches validation_split test_split).1
        = batches := by
  refine ⟨rfl, rfl, rfl, ?_⟩
  simp only [split_dataset_assign]
  rw [List.append_assoc]
  have hdrop : (batches.drop validation_split).take test_split
      ++ batches.drop (validation_split + test_split)
      = batches.drop validation_split := by
    have h1 : batches.drop (validation_split + test_split)
        = (batches.drop validation_split).drop test_split := by
      rw [List.drop_drop, Nat.add_comm]
    rw [h1, List.take_append_drop]
  rw [hdrop, List.take_append_drop]

/-! ## Batching and repetition (`TweetDatasetGenerator.batch_and_prepare`, lines 328-332) -/

/-- Embedding of `tf.data.Dataset.batch(batch_size, drop_remainder)` on a
finite dataset: group the sequence into consecutive batches of `batch_size`
elements; a final shorter batch is dropped when `drop_remainder` is true and
kept when it is false. -/
def batchList {α : Type} (batch_size : ℕ) (drop_remainder : Bool) (xs : List α) :
    List (List α) :=
  if h : batch_size = 0 ∨ xs.length = 0 then []
  else if xs.length < batch_size then (if drop_remainder then [] else [xs])
  else xs.take batch_size :: batchList batch_size drop_remainder (xs.drop batch_size)
termination_by xs.length
decreasing_by
  simp only [List.length_drop]
  push_neg at h
  omega

/-- Embedding of `tf.data.Dataset.repeat()` on a finite dataset: the infinite
stream that cycles through the list, viewed as the element at each stream
index (`none` when the underlying dataset is empty). -/
def repeatDataset {α : Type} (l : List α) : ℕ → Option α :=
  fun n => l[n % l.length]?

/-- Embedding of `TweetDatasetGenerator.batch_and_prepare`:
`dataset.batch(batch_size, drop_remainder=is_training)` followed by
`dataset.repeat()`, for every split. -/
def batch_and_prepare {α : Type} (xs : List α) (is_training : Bool) (batch_size : ℕ) :
    ℕ → Option (List α) :=
  repeatDataset (batchList batch_size is_training xs)

/-- Unfolding lemma: batching the empty dataset gives no batches. -/
lemma batchList_nil {α : Type} (bs : ℕ) (d : Bool) : batchList bs d ([] : List α) = [] := by
  rw [batchList]
  simp

/-- Unfolding lemma: a non-empty dataset shorter than the batch size yields one
partial batch, dropped exactly when `drop_remainder` is set. -/
lemma batchList_short {α : Type} (bs : ℕ) (d : Bool) (xs : List α)
    (hne : xs.length ≠ 0) (hlt : xs.length < bs) :
    batchList bs d xs = if d then [] else [xs] := by
  rw [batchList]
  have h1 : ¬ (bs = 0 ∨ xs.length = 0) := by omega
  rw [dif_neg h1, if_pos hlt]

/-- Unfolding lemma: a dataset of at least `bs` elements yields a full first
batch followed by the batches of the rest. -/
lemma batchList_step {α : Type} (bs : ℕ) (d : Bool) (xs : List α)
    (hbs : 0 < bs) (hge : bs ≤ xs.length) :
    batchList bs d xs = xs.take bs :: batchList bs d (xs.drop bs) := by
  rw [batchList]
  have h1 : ¬ (bs = 0 ∨ xs.length = 0) := by omega
  rw [dif_neg h1, if_neg (Nat.not_lt.mpr hge)]

/-- Fuel-indexed form of `batchList_true_map_length`. -/
lemma batchList_true_map_length_aux {α : Type} (bs : ℕ) (hbs : 0 < bs) :
    ∀ (n : ℕ) (xs : List α), xs.length ≤ n →
      (batchList bs true xs).map List.length = List.replicate (xs.length / bs) bs := by
  intro n
  induction n with
  | zero =>
    intro xs hx
    have : xs = [] := List.eq_nil_of_length_eq_zero (Nat.le_zero.mp hx)
    subst this
    simp [batchList_nil]
  | succ n ih =>
    intro xs hx
    by_cases hnil : xs.length = 0
    · have : xs = [] := List.eq_nil_of_length_eq_zero hnil
      subst this
      simp [batchList_nil]
    · by_cases hlt : xs.length < bs
      · rw [batchList_short bs true xs hnil hlt]
        simp [Nat.div_eq_of_lt hlt]
      · have hge : bs ≤ xs.length := Nat.not_lt.mp hlt
        rw [batchList_step bs true xs hbs hge]
        have hdroplen : (xs.drop bs).length ≤ n := by
          simp only [List.length_drop]
          omega
        rw [List.map_cons, ih (xs.drop bs) hdroplen]
        have hdiv : xs.length / bs = (xs.length - bs) / bs + 1 :=
          Nat.div_eq_sub_div hbs hge
        rw [List.length_take, Nat.min_eq_left hge, List.length_drop, hdiv,
          List.replicate_succ]

/-- With `drop_remainder` set (the training case) every batch has exactly
`bs` elements, and there are `xs.length / bs` of them. -/
lemma batchList_true_map_length {α : Type} (bs : ℕ) (hbs : 0 < bs) (xs : List α) :
    (batchList bs true xs).map List.length = List.replicate (xs.length / bs) bs :=
  batchList_true_map_length_aux bs hbs xs.length xs le_rfl

/-- Fuel-indexed form of `batchList_false_eq_true_append`. -/
lemma batchList_false_eq_true_append_aux {α : Type} (bs : ℕ) (hbs : 0 < bs) :
    ∀ (n : ℕ) (xs : List α), xs.length ≤ n →
      batchList bs false xs
        = batchList bs true xs
          ++ (if xs.length % bs = 0 then [] else [xs.drop (bs * (xs.length / bs))]) := by
  intro n
  induction n with
  | zero =>
    intro xs hx
    have : xs = [] := List.eq_nil_of_length_eq_zero (Nat.le_zero.mp hx)
    subst this
    simp [batchList_nil]
  | succ n ih =>
    intro xs hx
    by_cases hnil : xs.length = 0
    · have : xs = [] := List.eq_nil_of_length_eq_zero hnil
      subst this
      simp [batchList_nil]
    · by_cases hlt : xs.length < bs
      · rw [batchList_short bs false xs hnil hlt, batchList_short bs true xs hnil hlt]
        have hmod : xs.length % bs = xs.length := Nat.mod_eq_of_lt hlt
        have hdiv : xs.length / bs = 0 := Nat.div_eq_of_lt hlt
        rw [hmod, hdiv, if_neg hnil, Nat.mul_zero, List.drop_zero]
        simp
      · have hge : bs ≤ xs.length := Nat.not_lt.mp hlt
        rw [batchList_step bs false xs hbs hge, batchList_step bs true xs hbs hge]
        have hdroplen : (xs.drop bs).length ≤ n := by
          simp only [List.length_drop]
          omega
        rw [ih (xs.drop bs) hdroplen, List.cons_append]
        have hmod : (xs.drop bs).length % bs = xs.length % bs := by
          rw [List.length_drop]
          exact (Nat.mod_eq_sub_mod hge).symm
        have hdiv : xs.length / bs = (xs.length - bs) / bs + 1 :=
          Nat.div_eq_sub_div hbs hge
        have hdrop2 : (xs.drop bs).drop (bs * ((xs.drop bs).length / bs))
            = xs.drop (bs * (xs.length / bs)) := by
          rw [List.drop_drop, List.length_drop, hdiv]
          congr 1
          ring
        rw [hmod, hdrop2]

/-- Keeping the remainder (the validation/test case) yields exactly the
training batches followed by the final partial batch, when there is one. -/
lemma batchList_false_eq_true_append {α : Type} (bs : ℕ) (hbs : 0 < bs) (xs : List α) :
    batchList bs false xs
      = batchList bs true xs
        ++ (if xs.length % bs = 0 then [] else [xs.drop (bs * (xs.length / bs))]) :=
  batchList_false_eq_true_append_aux bs hbs xs.length xs le_rfl

/-- Batching a non-empty dataset without dropping the remainder yields at
least one batch. -/
lemma batchList_false_ne_nil {α : Type} (bs : ℕ) (xs : List α)
    (hbs : 0 < bs) (hxs : xs ≠ []) : batchList bs false xs ≠ [] := by
  have hnil : xs.length ≠ 0 := by
    simpa [List.length_eq_zero] using hxs
  by_cases hlt : xs.length < bs
  · rw [batchList_short bs false xs hnil hlt]
    simp
  · rw [batchList_step bs false xs hbs (Nat.not_lt.mp hlt)]
    simp

/-- Repetition is periodic: shifting the stream index by the length of the
underlying finite dataset lands on the same element. -/
lemma repeatDataset_add_length {α : Type} (l : List α) (n : ℕ) :
    repeatDataset l (n + l.length) = repeatDataset l n := by
  simp [repeatDataset, Nat.add_mod_right]

/-- The repetition of a non-empty dataset yields an element at every index. -/
lemma repeatDataset_isSome {α : Type} (l : List α) (hl : l ≠ []) (n : ℕ) :
    (repeatDataset l n).isSome := by
  have h : n % l.length < l.length := Nat.mod_lt _ (List.length_pos.mpr hl)
  simp [repeatDataset, List.getElem?_eq_getElem h]

/-- C6: with a positive batch size, (i) every training batch produced with
`drop_remainder=True` has exactly `batch_size` elements and there are
`floor(len/batch_size)` of them, (ii) batching with `drop_remainder=False`
(validation/test) keeps exactly the training batches plus the final partial
batch when one exists, (iii) `batch_and_prepare` makes the training split
repeat: shifting the stream index by the number of batches returns the same
batch, i.e. the sequence restarts once exhausted, and (iv) in the batch-count
strategy (`TweetDataset.split_dataset`) the validation and test splits are
finite lists that yield nothing past their batch counts — they do not
repeat. -/
theorem batcher_drop_keep_repeat {α β : Type} (batch_size : ℕ) (xs : List α)
    (batches : List β) (validation_split test_split : ℕ) (hbs : 0 < batch_size) :
    (batchList batch_size true xs).map List.length
        = List.replicate (xs.length / batch_size) batch_size ∧
    batchList batch_size false xs
        = batchList batch_size true xs
          ++ (if xs.length % batch_size = 0 then []
              else [xs.drop (batch_size * (xs.length / batch_size))]) ∧
    (∀ n : ℕ, batch_and_prepare xs true batch_size
          (n + (batchList batch_size true xs).length)
        = batch_and_prepare xs true batch_size n) ∧
    (∀ n : ℕ, validation_split ≤ n →
        ((split_dataset_assign batches validation_split test_split).2.1)[n]? = none) ∧
    (∀ n : ℕ, test_split ≤ n →
        ((split_dataset_assign batches validation_split test_split).2.2)[n]? = none) := by
  refine ⟨batchList_true_map_length batch_size hbs xs,
    batchList_false_eq_true_append batch_size hbs xs,
    fun n => repeatDataset_add_length _ n, fun n hn => ?_, fun n hn => ?_⟩
  · apply List.getElem?_eq_none
    simp only [split_dataset_assign, List.length_take]
    omega
  · apply List.getElem?_eq_none
    simp only [split_dataset_assign, List.length_take]
    omega

/-- C6 (witness): the batching theorem applied at batch size 2, the dataset
[1,2,3,4,5] and a three-batch batched dataset with one validation and one
test batch. -/
theorem batcher_drop_keep_repeat_at_five :
    (batchList 2 true [1,2,3,4,5]).map List.length
        = List.replicate ([1,2,3,4,5].length / 2) 2 ∧
    batchList 2 false [1,2,3,4,5]
        = batchList 2 true [1,2,3,4,5]
          ++ (if [1,2,3,4,5].length % 2 = 0 then []
              else [[1,2,3,4,5].drop (2 * ([1,2,3,4,5].length / 2))]) ∧
    batch_and_prepare [1,2,3,4,5] true 2 (0 + (batchList 2 true [1,2,3,4,5]).length)
        = batch_and_prepare [1,2,3,4,5] true 2 0 ∧
    ((split_dataset_assign [10,20,30] 1 1).2.1)[1]? = (none : Option ℕ) ∧
    ((split_dataset_assign [10,20,30] 1 1).2.2)[1]? = (none : Option ℕ) := by
  have T := batcher_drop_keep_repeat 2 [1,2,3,4,5] [10,20,30] 1 1 (by decide)
  exact ⟨T.1, T.2.1, T.2.2.1 0, T.2.2.2.1 1 (by decide), T.2.2.2.2 1 (by decide)⟩

/-- C9: `TweetDatasetGenerator.batch_and_prepare` applies `repeat()` to every
split regardless of `is_training`; in particular for a validation or test
split (`is_training=False`) of a non-empty dataset the prepared stream yields
a batch at every index (it never terminates at the natural end of the data)
and it is periodic with period the number of batches. -/
theorem batch_and_prepare_valid_test_repeats {α : Type} (batch_size : ℕ) (xs : List α)
    (hbs : 0 < batch_size) (hxs : xs ≠ []) :
    (∀ is_training : Bool, batch_and_prepare xs is_training batch_size
        = repeatDataset (batchList batch_size is_training xs)) ∧
    (∀ n : ℕ, (batch_and_prepare xs false batch_size n).isSome) ∧
    (∀ n : ℕ, batch_and_prepare xs false batch_size
          (n + (batchList batch_size false xs).length)
        = batch_and_prepare xs false batch_size n) := by
  refine ⟨fun _ => rfl, fun n => ?_, fun n => ?_⟩
  · exact repeatDataset_isSome _ (batchList_false_ne_nil batch_size xs hbs hxs) n
  · exact repeatDataset_add_length _ n

/-- C9 (witness): the repetition theorem applied at batch size 2 and dataset
[1,2,3]: index 5 (past the natural end, which is 2 batches) still yields a
batch. -/
theorem batch_and_prepare_valid_test_repeats_at_three :
    batch_and_prepare [1,2,3] false 2 = repeatDataset (batchList 2 false [1,2,3]) ∧
    (batch_and_prepare [1,2,3] false 2 5).isSome ∧
    batch_and_prepare [1,2,3] false 2 (1 + (batchList 2 false [1,2,3]).length)
        = batch_and_prepare [1,2,3] false 2 1 := by
  have T := batch_and_prepare_valid_test_repeats 2 [1,2,3] (by decide) (by decide)
  exact ⟨T.1 false, T.2.1 5, T.2.2 1⟩

/-! ## The embedder adapter (`get_bert_encoding`, lines 103-113 and 282-291) -/

/-- Modelled from the spec: the external `transformers` tokenizer, whose
`encode_plus(sentence, max_length, pad_to_max_length=True, ...)` returns a
token-id sequence and an attention mask both truncated/padded to exactly
`max_length` (special boundary tokens inserted internally).  The contract is
carried as proof fields so that any instance satisfies it. -/
structure BertEncoder where
  encode_plus : String → ℕ → List ℕ × List ℕ
  ids_len : ∀ s m, (encode_plus s m).1.length = m
  mask_len : ∀ s m, (encode_plus s m).2.length = m

/-- Embedding of `TweetDataset.get_bert_encoding` (lines 103-113): the call
`self.tokenizer.encode_plus(str(sentence), max_length=50, ...)` uses the
literal 50, not the pipeline's `max_len` constructor parameter, which is
passed here to represent the configuration but is never consulted. -/
def tweetDataset_get_bert_encoding (tok : BertEncoder) (max_len : ℕ) (sentence : String) :
    List ℕ × List ℕ :=
  tok.encode_plus sentence 50

/-- Embedding of `TweetDatasetGenerator.get_bert_encoding` (lines 282-291):
`self.tokenizer.encode_plus(str(sentence), max_length=self.max_len, ...)`. -/
def tweetDatasetGenerator_get_bert_encoding (tok : BertEncoder) (max_len : ℕ)
    (sentence : String) : List ℕ × List ℕ :=
  tok.encode_plus sentence max_len

/-- A concrete encoder satisfying the external contract, used to evaluate the
adapters on explicit inputs. -/
def zeroEncoder : BertEncoder where
  encode_plus := fun _ m => (List.replicate m 0, List.replicate m 0)
  ids_len := fun _ m => List.length_replicate m 0
  mask_len := fun _ m => List.length_replicate m 0

/-- C2 (counterexample): with the pipeline configured with `max_len = 100`,
pushing the record "hello" through `TweetDataset.get_bert_encoding` yields
ids and mask of length 50, not the configured maximum length 100, because the
method hardcodes `max_length=50`. -/
theorem tweetDataset_encoding_ignores_max_len :
    (tweetDataset_get_bert_encoding zeroEncoder 100 "hello").1.length = 50 ∧
    (tweetDataset_get_bert_encoding zeroEncoder 100 "hello").2.length = 50 ∧
    (50 : ℕ) < 100 :=
  ⟨zeroEncoder.ids_len "hello" 50, zeroEncoder.mask_len "hello" 50, by decide⟩

/-- C2 (amended): for every tokenizer satisfying the external contract and
every input record, `TweetDatasetGenerator.get_bert_encoding` yields ids and
mask of exactly the configured `max_len`, while `TweetDataset.get_bert_encoding`
yields ids and mask of exactly 50 regardless of the configured `max_len`. -/
theorem get_bert_encoding_lengths (tok : BertEncoder) (max_len : ℕ) (sentence : String) :
    (tweetDatasetGenerator_get_bert_encoding tok max_len sentence).1.length = max_len ∧
    (tweetDatasetGenerator_get_bert_encoding tok max_len sentence).2.length = max_len ∧
    (tweetDataset_get_bert_encoding tok max_len sentence).1.length = 50 ∧
    (tweetDataset_get_bert_encoding tok max_len sentence).2.length = 50 :=
  ⟨tok.ids_len sentence max_len, tok.mask_len sentence max_len,
   tok.ids_len sentence 50, tok.mask_len sentence 50⟩

/-! ## Label attachment (lines 145-150 and 256-269) -/

/-- Embedding of the label-count guard in `TweetDataset.load_dataset`
(lines 146-147): `if labels: assert len(labels) == len(self.input_files)`.
Returns true when construction passes the guard (no AssertionError); an
empty (falsy) labels list skips the guard entirely. -/
def tweetDataset_labels_ok (input_files : List String) (labels : List ℤ) : Bool :=
  if labels.isEmpty then true else labels.length == input_files.length

/-- Embedding of the per-file label construction in
`TweetDatasetGenerator.load_data_from_files` (lines 266-269): for each input
file (index `i`) it builds `[labels[i]] * length`; `none` models the
IndexError raised when `labels` has fewer entries than there are files.
Labels beyond the number of files are never accessed. -/
def generator_dataset_labels : List String → List ℤ → ℕ → Option (List (List ℤ))
  | [], _, _ => some []
  | _ :: _, [], _ => none
  | _ :: fs, l :: ls, len =>
    (generator_dataset_labels fs ls len).map (fun rest => List.replicate len l :: rest)

/-- The generator's label construction succeeds exactly when there are at
least as many labels as files. -/
lemma generator_labels_isSome_iff (files : List String) (labels : List ℤ) (len : ℕ) :
    (generator_dataset_labels files labels len).isSome ↔ files.length ≤ labels.length := by
  induction files generalizing labels with
  | nil => simp [generator_dataset_labels]
  | cons f fs ih =>
    cases labels with
    | nil => simp [generator_dataset_labels]
    | cons l ls =>
      simp [generator_dataset_labels, ih ls]

/-- C3 (counterexample): one input file with two labels — lengths differ, yet
`TweetDatasetGenerator.load_data_from_files` raises nothing: the per-file
label construction succeeds, silently ignoring the extra label, so unequal
lengths do not always raise a Configuration error. -/
theorem generator_accepts_extra_labels :
    (generator_dataset_labels ["pos.txt"] [0, 1] 3).isSome = true ∧
    [(0:ℤ), 1].length = 2 ∧ ["pos.txt"].length = 1 :=
  ⟨rfl, rfl, rfl⟩

/-- C3 (amended): for a non-empty labels list, `TweetDataset` construction
passes the label guard exactly when the label count equals the file count
(so equal lengths never raise and unequal lengths always raise there), while
`TweetDatasetGenerator` label construction succeeds exactly when there are at
least as many labels as files: too few labels raise an IndexError, but extra
labels are silently ignored rather than raising a Configuration error. -/
theorem labels_check_characterization (files : List String) (labels : List ℤ) (len : ℕ)
    (hne : labels ≠ []) :
    (tweetDataset_labels_ok files labels = true ↔ labels.length = files.length) ∧
    ((generator_dataset_labels files labels len).isSome ↔ files.length ≤ labels.length) := by
  constructor
  · have hemp : labels.isEmpty = false := by
      simpa [List.isEmpty_iff] using hne
    simp [tweetDataset_labels_ok, hemp]
  · exact generator_labels_isSome_iff files labels len

/-- C3 (witness): the label-check characterization applied to two files with
two labels. -/
theorem labels_check_characterization_at_pair :
    (tweetDataset_labels_ok ["a", "b"] [0, 1] = true
        ↔ [(0:ℤ), 1].length = ["a", "b"].length) ∧
    ((generator_dataset_labels ["a", "b"] [0, 1] 2).isSome
        ↔ ["a", "b"].length ≤ [(0:ℤ), 1].length) :=
  labels_check_characterization ["a", "b"] [0, 1] 2 (by decide)

/-! ## Prediction mode with padding (`TweetDataset.__init__`, lines 98-101) -/

/-- Fuel-indexed form of `batchList_false_flatten`. -/
lemma batchList_false_flatten_aux {α : Type} (bs : ℕ) (hbs : 0 < bs) :
    ∀ (n : ℕ) (xs : List α), xs.length ≤ n → (batchList bs false xs).flatten = xs := by
  intro n
  induction n with
  | zero =>
    intro xs hx
    have : xs = [] := List.eq_nil_of_length_eq_zero (Nat.le_zero.mp hx)
    subst this
    simp [batchList_nil]
  | succ n ih =>
    intro xs hx
    by_cases hnil : xs.length = 0
    · have : xs = [] := List.eq_nil_of_length_eq_zero hnil
      subst this
      simp [batchList_nil]
    · by_cases hlt : xs.length < bs
      · rw [batchList_short bs false xs hnil hlt]
        simp
      · have hge : bs ≤ xs.length := Nat.not_lt.mp hlt
        rw [batchList_step bs false xs hbs hge]
        have hdroplen : (xs.drop bs).length ≤ n := by
          simp only [List.length_drop]
          omega
        rw [List.flatten_cons, ih (xs.drop bs) hdroplen, List.take_append_drop]

/-- Batching without dropping the remainder loses no element: flattening the
batches returns the original sequence. -/
lemma batchList_false_flatten {α : Type} (bs : ℕ) (hbs : 0 < bs) (xs : List α) :
    (batchList bs false xs).flatten = xs :=
  batchList_false_flatten_aux bs hbs xs.length xs le_rfl

/-- Padding of one record to `max_len`, as done along the padded dimension by
`padded_batch(batch_size, padded_shapes=[max_len])`. -/
def padTo {α : Type} (max_len : ℕ) (pad : α) (e : List α) : List α :=
  e ++ List.replicate (max_len - e.length) pad

/-- Embedding of `tf.data.Dataset.padded_batch(batch_size, padded_shapes=[max_len])`
as used in prediction mode (`TweetDataset.__init__` line 100): group the bare
records into batches (keeping the final partial batch) and pad every record to
exactly `max_len`; `none` models the runtime error the external library raises
when a record is longer than the padded shape. -/
def padded_batch {α : Type} (batch_size max_len : ℕ) (pad : α) (xs : List (List α)) :
    Option (List (List (List α))) :=
  if ∀ e ∈ xs, e.length ≤ max_len then
    some ((batchList batch_size false xs).map (fun b => b.map (padTo max_len pad)))
  else none

/-- C7: in prediction mode with `do_padding=True` and `max_len=20`, whenever
batches are produced, every element of every batch has length exactly 20, and
the batches consist of exactly the padded bare records — no label component
is attached (the elements are the records themselves, not record/label
pairs). -/
theorem padded_batch_elements_len_20 {α : Type} (batch_size : ℕ) (pad : α)
    (xs : List (List α)) (out : List (List (List α))) (hbs : 0 < batch_size)
    (h : padded_batch batch_size 20 pad xs = some out) :
    out.flatten = xs.map (padTo 20 pad) ∧
    ∀ b ∈ out, ∀ e ∈ b, e.length = 20 := by
  unfold padded_batch at h
  by_cases hc : ∀ e ∈ xs, e.length ≤ 20
  · rw [if_pos hc] at h
    have hout : out = (batchList batch_size false xs).map (fun b => b.map (padTo 20 pad)) :=
      (Option.some.injEq _ _).mp h.symm
    subst hout
    have hflat : ((batchList batch_size false xs).map (fun b => b.map (padTo 20 pad))).flatten
        = xs.map (padTo 20 pad) := by
      rw [← List.map_flatten, batchList_false_flatten batch_size hbs xs]
    refine ⟨hflat, fun b hb e he => ?_⟩
    have hmem : e ∈ ((batchList batch_size false xs).map
        (fun b => b.map (padTo 20 pad))).flatten := List.mem_flatten.mpr ⟨b, hb, he⟩
    rw [hflat] at hmem
    obtain ⟨x, hx, rfl⟩ := List.mem_map.mp hmem
    simp only [padTo, List.length_append, List.length_replicate]
    have := hc x hx
    omega
  · rw [if_neg hc] at h
    exact absurd h (by simp)

/-- Evaluation of the batcher on the concrete two-record prediction dataset
used by the C7 witness. -/
lemma batchList_two_records : batchList 2 false [[1,2],[3]] = [[[(1:ℕ),2],[3]]] := by
  rw [batchList_step 2 false [[1,2],[3]] (by decide) (by decide)]
  norm_num [batchList_nil]

/-- C7 (witness): the padding theorem applied to the prediction dataset
[[1,2],[3]] with batch size 2 and `max_len=20`. -/
theorem padded_batch_elements_len_20_at_two_records :
    ([[[(1:ℕ),2] ++ List.replicate 18 0, [3] ++ List.replicate 19 0]]).flatten
        = [[1,2],[3]].map (padTo 20 0) ∧
    ∀ b ∈ ([[[(1:ℕ),2] ++ List.replicate 18 0, [3] ++ List.replicate 19 0]] :
        List (List (List ℕ))), ∀ e ∈ b, e.length = 20 :=
  padded_batch_elements_len_20 2 0 [[1,2],[3]] _ (by decide)
    (by rw [padded_batch, if_pos (by decide), batchList_two_records]; rfl)

/-! ## File loading (`TweetDataset.load_dataset`, lines 124-131) -/

/-- The error kinds surfaced by the embedded file loader. -/
inductive LoadError where
  | notFound
deriving DecidableEq

/-- Modelled from the spec: the external `tf.data.TextLineDataset` capability,
reading a newline-delimited file into its list of lines over an abstract
filesystem (a partial map from paths to line lists); per the spec's File
Loader contract a missing path fails with a NotFound error. -/
def textLineDataset (filesystem : String → Option (List String)) (path : String) :
    Except LoadError (List String) :=
  match filesystem path with
  | some lines => Except.ok lines
  | none => Except.error LoadError.notFound

/-- Embedding of the reading loop of `TweetDataset.load_dataset` (lines
126-131): one `TextLineDataset(path).take(cap)` per input file, in order; the
first missing file aborts the whole load with its error and no partial result
escapes. -/
def load_dataset_files (filesystem : String → Option (List String)) (cap : ℕ) :
    List String → Except LoadError (List (List String))
  | [] => Except.ok []
  | p :: ps =>
    match textLineDataset filesystem p with
    | Except.error e => Except.error e
    | Except.ok lines =>
      (load_dataset_files filesystem cap ps).map (fun rest => lines.take cap :: rest)

/-- The per-file cap of `load_dataset` is `self.size // len(paths)`. -/
def tweetDataset_load_files (filesystem : String → Option (List String))
    (input_files : List String) (size : ℕ) : Except LoadError (List (List String)) :=
  load_dataset_files filesystem (size / input_files.length) input_files

/-- Loading fails with NotFound exactly when some requested file is missing. -/
lemma load_files_error_iff (filesystem : String → Option (List String)) (cap : ℕ)
    (files : List String) :
    load_dataset_files filesystem cap files = Except.error LoadError.notFound
      ↔ ∃ p ∈ files, filesystem p = none := by
  induction files with
  | nil => simp [load_dataset_files]
  | cons p ps ih =>
    simp only [load_dataset_files, textLineDataset]
    cases hp : filesystem p with
    | none =>
      exact iff_of_true rfl ⟨p, List.mem_cons_self p ps, hp⟩
    | some lines =>
      have hrhs : (∃ q ∈ p :: ps, filesystem q = none)
          ↔ (∃ q ∈ ps, filesystem q = none) := by
        constructor
        · rintro ⟨q, hq, hqn⟩
          rcases List.mem_cons.mp hq with rfl | hq2
          · rw [hp] at hqn
            exact absurd hqn (by simp)
          · exact ⟨q, hq2, hqn⟩
        · rintro ⟨q, hq, hqn⟩
          exact ⟨q, List.mem_cons_of_mem p hq, hqn⟩
      rw [hrhs, ← ih]
      cases hrec : load_dataset_files filesystem cap ps with
      | error e =>
        cases e
        simp [Except.map]
      | ok rest =>
        simp [Except.map]

/-- A successful load yields one dataset per input file (never a partial
dataset). -/
lemma load_files_ok_length (filesystem : String → Option (List String)) (cap : ℕ) :
    ∀ (files : List String) (datasets : List (List String)),
      load_dataset_files filesystem cap files = Except.ok datasets →
      datasets.length = files.length := by
  intro files
  induction files with
  | nil =>
    intro datasets h
    simp only [load_dataset_files] at h
    cases h
    rfl
  | cons p ps ih =>
    intro datasets
    simp only [load_dataset_files, textLineDataset]
    cases hp : filesystem p with
    | none =>
      intro h
      exact absurd h (by simp)
    | some lines =>
      cases hrec : load_dataset_files filesystem cap ps with
      | error e =>
        intro h
        exact absurd h (by simp [Except.map])
      | ok rest =>
        intro h
        simp only [Except.map, Except.ok.injEq] at h
        subst h
        simp [ih rest hrec]

/-- C8: pipeline construction fails with a NotFound error precisely when some
input file is missing from the filesystem, and a successful construction
returns one (capped) dataset per input file — there is no partial dataset in
either case. -/
theorem load_dataset_aborts_on_missing_file (filesystem : String → Option (List String))
    (size : ℕ) (files : List String) :
    (tweetDataset_load_files filesystem files size = Except.error LoadError.notFound
        ↔ ∃ p ∈ files, filesystem p = none) ∧
    (∀ datasets, tweetDataset_load_files filesystem files size = Except.ok datasets →
        datasets.length = files.length) :=
  ⟨load_files_error_iff filesystem (size / files.length) files,
   fun datasets => load_files_ok_length filesystem (size / files.length) files datasets⟩

/-! ## Low-level id and mask builders (`src/embedding/BERT_EMBEDDING.py`) -/

/-- A concrete tokenizer vocabulary mapping used to evaluate the id builder on
explicit inputs. -/
def oneVocab : String → ℕ := fun _ => 1

/-- The external `tokenizer.convert_tokens_to_ids`: one id per token. -/
def convert_tokens_to_ids (vocab : String → ℕ) (tokens : List String) : List ℕ :=
  tokens.map vocab

/-- Embedding of `get_ids` (lines 30-34): `token_ids + [0]*(max_seq_length -
len(token_ids))`; a Python list repetition with a negative count is the empty
list, exactly like truncated subtraction on ℕ, so no branch of this function
can raise. -/
def get_ids (tokens : List String) (vocab : String → ℕ) (max_seq_length : ℕ) : List ℕ :=
  convert_tokens_to_ids vocab tokens
    ++ List.replicate (max_seq_length - (convert_tokens_to_ids vocab tokens).length) 0

/-- Embedding of `get_masks` (lines 10-14): raises IndexError (modelled as
`none`) when the token count exceeds `max_seq_length`, otherwise ones followed
by zero padding. -/
def get_masks (tokens : List String) (max_seq_length : ℕ) : Option (List ℕ) :=
  if max_seq_length < tokens.length then none
  else some (List.replicate tokens.length 1
    ++ List.replicate (max_seq_length - tokens.length) 0)

/-- C10: `get_ids` never raises — when the id count (= token count) is at most
`max_seq_length` it returns the ids zero-padded to exactly `max_seq_length`,
and when the id count exceeds `max_seq_length` it returns all ids without
truncation (a list strictly longer than `max_seq_length`) while `get_masks`
raises an IndexError on the same input. -/
theorem get_ids_total_get_masks_raises (vocab : String → ℕ) (tokens : List String)
    (max_seq_length : ℕ) :
    (tokens.length ≤ max_seq_length →
        (get_ids tokens vocab max_seq_length).length = max_seq_length ∧
        get_ids tokens vocab max_seq_length
          = convert_tokens_to_ids vocab tokens
            ++ List.replicate (max_seq_length - tokens.length) 0) ∧
    (max_seq_length < tokens.length →
        get_ids tokens vocab max_seq_length = convert_tokens_to_ids vocab tokens ∧
        max_seq_length < (get_ids tokens vocab max_seq_length).length ∧
        get_masks tokens max_seq_length = none) := by
  have hlen : (convert_tokens_to_ids vocab tokens).length = tokens.length := by
    simp [convert_tokens_to_ids]
  constructor
  · intro hle
    constructor
    · simp only [get_ids, List.length_append, List.length_replicate, hlen]
      omega
    · rw [get_ids, hlen]
  · intro hgt
    refine ⟨?_, ?_, ?_⟩
    · rw [get_ids, hlen]
      have : max_seq_length - tokens.length = 0 := by omega
      rw [this]
      simp
    · simp only [get_ids, List.length_append, List.length_replicate, hlen]
      omega
    · rw [get_masks, if_pos hgt]

/-- C10 (witness): two tokens fit in length 5 and pad to exactly 5; three
tokens overflow length 2, where `get_ids` returns the untruncated ids and
`get_masks` raises. -/
theorem get_ids_total_get_masks_raises_at_inputs :
    (get_ids ["a", "b"] oneVocab 5).length = 5 ∧
    get_ids ["a", "b", "c"] oneVocab 2 = convert_tokens_to_ids oneVocab ["a", "b", "c"] ∧
    get_masks ["a", "b", "c"] 2 = none :=
  ⟨((get_ids_total_get_masks_raises oneVocab ["a", "b"] 5).1 (by decide)).1,
   ((get_ids_total_get_masks_raises oneVocab ["a", "b", "c"] 2).2 (by decide)).1,
   ((get_ids_total_get_masks_raises oneVocab ["a", "b", "c"] 2).2 (by decide)).2.2⟩

/-- A concrete two-file filesystem used to evaluate the loader on explicit
inputs. -/
def demoFilesystem : String → Option (List String) :=
  fun p => if p = "pos.txt" then some ["x", "y"] else none

/-- C8 (witness): the loader theorem applied to a filesystem where
"missing.txt" does not resolve (loading aborts with NotFound) and to the
resolvable singleton file list (one dataset per file). -/
theorem load_dataset_aborts_on_missing_file_at_demo :
    tweetDataset_load_files demoFilesystem ["pos.txt", "missing.txt"] 4
        = Except.error LoadError.notFound ∧
    ([["x", "y"]] : List (List String)).length = ["pos.txt"].length :=
  ⟨(load_dataset_aborts_on_missing_file demoFilesystem 4 ["pos.txt", "missing.txt"]).1.mpr
      ⟨"missing.txt", by simp, rfl⟩,
   (load_dataset_aborts_on_missing_file demoFilesystem 4 ["pos.txt"]).2 [["x", "y"]] rfl⟩
